import Mathlib

/-!
Verification development for the hemspy preprocessing pipeline.

The Python sources are embedded shallowly:
- `src/preprocess/infer_hems_minima.py` (weather minima classifier and the
  per-airport centered rolling-window aggregation);
- `src/preprocess/find_transfers.py` (zone-crossing detector, dwell filter,
  transfer matcher, transfer enrichment).

Missing values (NaN/NaT/null) are modelled as `Option.none`; timestamps are
UTC epoch seconds (`Int`); physical quantities (feet, metres, minutes,
kilometres) are rationals (`ℚ`).  Pandas `.dt.seconds` (the seconds
component of a timedelta, i.e. the total seconds reduced modulo one day) is
modelled with `Int.emod _ 86400`, which is nonnegative for a positive
modulus, exactly like pandas.
-/

namespace Hemspy

/-! ### Weather observation rows (`infer_hems_minima.py`)

A row carries the fields read by `hems_minima`: `daylight`,
`metar_cloud_ceiling`, `metar_cloud_base`, `metar_visibility`.  A missing
(NaN) ceiling/base/visibility is `none`. -/

structure WRow where
  daylight : Bool
  metar_cloud_ceiling : Option ℚ
  metar_cloud_base : Option ℚ
  metar_visibility : Option ℚ
  deriving Repr, DecidableEq

/-- Embedding of `hems_minima` (`infer_hems_minima.py` lines 7-29).  The
Python function first handles daylight rows (NaN ceiling or visibility gives
NaN; then the ceiling bands 400-500, 300-400, at least 500, otherwise
`False`) and then night rows (NaN base or visibility gives NaN, else
`cloud_base >= 1200 and visibility >= 2500`).  `none` plays the role of
`np.NaN`. -/
def hems_minima (row : WRow) : Option Bool :=
  if row.daylight then
    match row.metar_cloud_ceiling, row.metar_visibility with
    | none, _ => none
    | some _, none => none
    | some c, some v =>
      if 400 ≤ c ∧ c < 500 then some (decide (1000 ≤ v))
      else if 300 ≤ c ∧ c < 400 then some (decide (2000 ≤ v))
      else if 500 ≤ c then some (decide (800 ≤ v))
      else some false
  else
    match row.metar_cloud_base, row.metar_visibility with
    | none, _ => none
    | some _, none => none
    | some b, some v => some (decide (1200 ≤ b) && decide (2500 ≤ v))

/-! ### Rolling-window aggregation (`infer_hems_minima.py` lines 32-58)

`hems_minima_window` groups observation rows by airport (`icao`), sorts each
group by `time_utc` and applies a centered time-based rolling window
(default `241Min`, i.e. 120.5 minutes = 7230 seconds on each side) whose
aggregate is the inner `weather_minima` function: NaN when every verdict in
the window is NaN, else `True` iff any verdict is `True` (pandas
`Series.any` skips NaN).  Grouping, sorting and the final
`map({1: True, 0: False, ...})` round-trip only reshuffle rows and encode
booleans as floats; the aggregate attached to a row depends only on the set
of same-airport rows whose timestamp lies in the centered window, which is
what the embedding computes directly.  `half` is the half-width of the
window in seconds (7230 for the default `241Min`). -/

structure ORow where
  icao : Nat
  time_utc : Int
  hems_minima : Option Bool
  deriving Repr, DecidableEq

/-- Embedding of the inner aggregate `weather_minima` of
`hems_minima_window`: NaN if the whole window is NaN, else `True` iff some
verdict in the window is `True`. -/
def weather_minima (period : List (Option Bool)) : Option Bool :=
  if period.all (fun v => v == none) then none
  else some (period.any (fun v => v == some true))

/-- Verdicts of the same-airport rows inside the centered window of
half-width `half` seconds around `r.time_utc`. -/
def window_verdicts (d : List ORow) (r : ORow) (half : Int) : List (Option Bool) :=
  (d.filter (fun r2 =>
    (r2.icao == r.icao) &&
    (decide (r.time_utc - half ≤ r2.time_utc)) &&
    (decide (r2.time_utc ≤ r.time_utc + half)))).map (fun r2 => r2.hems_minima)

/-- Embedding of `hems_minima_window`: every row is paired with the
aggregate of the classifier verdicts of its airport inside the centered
window. -/
def hems_minima_window (d : List ORow) (half : Int) : List (ORow × Option Bool) :=
  d.map (fun r => (r, weather_minima (window_verdicts d r half)))

end Hemspy

namespace Hemspy

/-- C7: the weather minima classifier `hems_minima` returns, for a daylight
observation, unknown when ceiling or visibility is missing, `false` when
ceiling < 300 ft, `visibility ≥ 2000` for ceiling in [300,400) ft,
`visibility ≥ 1000` for ceiling in [400,500) ft and `visibility ≥ 800` for
ceiling ≥ 500 ft; for a night observation it returns unknown when cloud
base or visibility is missing and otherwise `true` iff cloud base ≥ 1200 ft
and visibility ≥ 2500 m; in particular night with cloud base 1000 and
visibility 3000 yields `false`. -/
theorem hems_minima_cases :
    (∀ r : WRow, r.daylight = true →
      (r.metar_cloud_ceiling = none ∨ r.metar_visibility = none) →
      hems_minima r = none) ∧
    (∀ (r : WRow) (c v : ℚ), r.daylight = true →
      r.metar_cloud_ceiling = some c → r.metar_visibility = some v →
      (c < 300 → hems_minima r = some false) ∧
      (300 ≤ c → c < 400 → hems_minima r = some (decide (2000 ≤ v))) ∧
      (400 ≤ c → c < 500 → hems_minima r = some (decide (1000 ≤ v))) ∧
      (500 ≤ c → hems_minima r = some (decide (800 ≤ v)))) ∧
    (∀ r : WRow, r.daylight = false →
      (r.metar_cloud_base = none ∨ r.metar_visibility = none) →
      hems_minima r = none) ∧
    (∀ (r : WRow) (b v : ℚ), r.daylight = false →
      r.metar_cloud_base = some b → r.metar_visibility = some v →
      hems_minima r = some (decide (1200 ≤ b) && decide (2500 ≤ v))) ∧
    (∀ r : WRow, r.daylight = false →
      r.metar_cloud_base = some 1000 → r.metar_visibility = some 3000 →
      hems_minima r = some false) := by
  refine ⟨?_, ?_, ?_, ?_, ?_⟩
  · intro r hday hmiss
    rcases hmiss with h | h <;> simp [hems_minima, hday, h]
    cases r.metar_cloud_ceiling <;> simp
  · intro r c v hday hc hv
    refine ⟨?_, ?_, ?_, ?_⟩
    · intro h
      have h1 : ¬ (400 ≤ c ∧ c < 500) := by intro hx; linarith [hx.1]
      have h2 : ¬ (300 ≤ c ∧ c < 400) := by intro hx; linarith [hx.1]
      have h3 : ¬ (500 ≤ c) := by linarith
      simp [hems_minima, hday, hc, hv, h1, h2, h3]
    · intro h1 h2
      have hx : ¬ (400 ≤ c ∧ c < 500) := by intro hx; linarith [hx.1]
      have hy : (300 ≤ c ∧ c < 400) := ⟨h1, h2⟩
      simp [hems_minima, hday, hc, hv, hx, hy]
    · intro h1 h2
      have hx : (400 ≤ c ∧ c < 500) := ⟨h1, h2⟩
      simp [hems_minima, hday, hc, hv, hx]
    · intro h
      have h1 : ¬ (400 ≤ c ∧ c < 500) := by intro hx; linarith [hx.2]
      have h2 : ¬ (300 ≤ c ∧ c < 400) := by intro hx; linarith [hx.2]
      simp [hems_minima, hday, hc, hv, h1, h2, h]
  · intro r hday hmiss
    rcases hmiss with h | h <;> simp [hems_minima, hday, h]
    cases r.metar_cloud_base <;> simp
  · intro r b v hday hb hv
    simp [hems_minima, hday, hb, hv]
  · intro r hday hb hv
    simp [hems_minima, hday, hb, hv]
    norm_num

/-- Witness for C7: concrete rows exercising the theorem; the night scenario
with cloud base 1000 and visibility 3000 classifies as `false`. -/
theorem hems_minima_cases_witness :
    hems_minima ⟨false, some 5000, some 1000, some 3000⟩ = some false :=
  hems_minima_cases.2.2.2.2 ⟨false, some 5000, some 1000, some 3000⟩ rfl rfl rfl

/-- C10: the night-time classification of `hems_minima` does not depend on
the cloud-ceiling field: any two rows with `daylight = false` agreeing on
cloud base and visibility classify identically, whatever their ceilings. -/
theorem hems_minima_night_ignores_ceiling (r1 r2 : WRow)
    (h1 : r1.daylight = false) (h2 : r2.daylight = false)
    (hb : r1.metar_cloud_base = r2.metar_cloud_base)
    (hv : r1.metar_visibility = r2.metar_visibility) :
    hems_minima r1 = hems_minima r2 := by
  simp [hems_minima, h1, h2, hb, hv]

/-- Witness for C10: two night rows with wildly different ceilings but the
same base and visibility classify identically. -/
theorem hems_minima_night_ignores_ceiling_witness :
    hems_minima ⟨false, some 9999, some 1300, some 2600⟩ =
      hems_minima ⟨false, none, some 1300, some 2600⟩ :=
  hems_minima_night_ignores_ceiling _ _ rfl rfl rfl rfl

/-- C8: for every row of the per-airport rolling aggregation, the attached
aggregate over the verdicts inside the centered window is unknown iff every
verdict there is unknown, `true` iff at least one verdict is `true`
(regardless of `false`/unknown entries), and `false` exactly otherwise. -/
theorem hems_minima_window_spec (d : List ORow) (half : Int) (r : ORow)
    (out : Option Bool) (h : (r, out) ∈ hems_minima_window d half) :
    (out = none ↔ ∀ v ∈ window_verdicts d r half, v = none) ∧
    (out = some true ↔ some true ∈ window_verdicts d r half) ∧
    (out = some false ↔
      (some true ∉ window_verdicts d r half ∧
       ¬ ∀ v ∈ window_verdicts d r half, v = none)) := by
  have hout : out = weather_minima (window_verdicts d r half) := by
    rcases List.mem_map.mp h with ⟨r', _, heq⟩
    have hr : r' = r := congrArg Prod.fst heq
    have := congrArg Prod.snd heq
    simp only at this
    rw [← this, hr]
  subst hout
  unfold weather_minima
  by_cases hall : (window_verdicts d r half).all (fun v => v == none) = true
  · have hallP : ∀ v ∈ window_verdicts d r half, v = none := by
      intro v hv
      have := List.all_eq_true.mp hall v hv
      simpa using this
    have hnt : some true ∉ window_verdicts d r half := by
      intro hmem
      have := hallP _ hmem
      simp at this
    rw [if_pos hall]
    exact ⟨⟨fun _ => hallP, fun _ => rfl⟩,
      ⟨fun hc => (nomatch hc), fun hm => absurd hm hnt⟩,
      ⟨fun hc => (nomatch hc), fun hpair => (hpair.2 hallP).elim⟩⟩
  · have hallP : ¬ ∀ v ∈ window_verdicts d r half, v = none := by
      intro hc
      apply hall
      exact List.all_eq_true.mpr (fun v hv => by simpa using hc v hv)
    rw [if_neg hall]
    by_cases hany : (window_verdicts d r half).any (fun v => v == some true) = true
    · have hmem : some true ∈ window_verdicts d r half := by
        rcases List.any_eq_true.mp hany with ⟨v, hv, hvt⟩
        have : v = some true := by simpa using hvt
        exact this ▸ hv
      rw [hany]
      exact ⟨⟨fun hc => (nomatch hc), fun hq => (hallP hq).elim⟩,
        ⟨fun _ => hmem, fun _ => rfl⟩,
        ⟨fun hc => (nomatch hc), fun hpair => absurd hmem hpair.1⟩⟩
    · have hmem : some true ∉ window_verdicts d r half := by
        intro hmem
        exact hany (List.any_eq_true.mpr ⟨some true, hmem, by simp⟩)
      have hanyf : ((window_verdicts d r half).any (fun v => v == some true)) = false :=
        Bool.eq_false_iff.mpr hany
      rw [hanyf]
      exact ⟨⟨fun hc => (nomatch hc), fun hq => (hallP hq).elim⟩,
        ⟨fun hc => (nomatch hc), fun hm => absurd hm hmem⟩,
        ⟨fun _ => ⟨hmem, hallP⟩, fun _ => rfl⟩⟩

/-- Witness for C8: a window containing one `false` and one `true` verdict
aggregates to `true`. -/
theorem hems_minima_window_spec_witness :
    ((some true : Option Bool) = none ↔
      ∀ v ∈ window_verdicts
        [⟨1, 0, some false⟩, ⟨1, 600, some true⟩] ⟨1, 0, some false⟩ 7230,
        v = none) ∧
    ((some true : Option Bool) = some true ↔
      some true ∈ window_verdicts
        [⟨1, 0, some false⟩, ⟨1, 600, some true⟩] ⟨1, 0, some false⟩ 7230) ∧
    ((some true : Option Bool) = some false ↔
      (some true ∉ window_verdicts
        [⟨1, 0, some false⟩, ⟨1, 600, some true⟩] ⟨1, 0, some false⟩ 7230 ∧
       ¬ ∀ v ∈ window_verdicts
        [⟨1, 0, some false⟩, ⟨1, 600, some true⟩] ⟨1, 0, some false⟩ 7230,
        v = none)) :=
  hems_minima_window_spec
    [⟨1, 0, some false⟩, ⟨1, 600, some true⟩] 7230 ⟨1, 0, some false⟩
    (some true) (by decide)

end Hemspy

namespace Hemspy

/-! ### Position records and the zone-crossing detector
(`find_transfers.py` lines 5-42)

A `PRow` carries the columns read by `extract_entries_and_exits`:
`aircraft_id`, the timestamp `UTC` (epoch seconds), the nullable
`zone_name`, the per-zone dwell threshold `dwell_time` (minutes) and the
{0,1}-coded `is_primary_hospital` column. -/

structure PRow where
  aircraft_id : Nat
  UTC : Int
  zone_name : Option String
  dwell_time : ℚ
  is_primary_hospital : Nat
  deriving Repr, DecidableEq

/-- Column `in_helipad_zone` (line 22): `zone_name` is non-null. -/
def in_helipad_zone (r : PRow) : Bool :=
  r.zone_name.isSome

/-- The in-zone state of the record at position `i` (`false` out of
range). -/
def in_zone_at (d : List PRow) (i : Nat) : Bool :=
  match d.get? i with
  | some r => in_helipad_zone r
  | none => false

/-- The aircraft of the record at position `i`, if any. -/
def aircraft_at (d : List PRow) (i : Nat) : Option Nat :=
  (d.get? i).map (fun r => r.aircraft_id)

/-- Column `zone_change` (line 23):
`in_helipad_zone.ne(in_helipad_zone.shift())`.  The shift is over the whole
frame, not grouped by aircraft, so the value at position `i > 0` compares
with the record at position `i - 1` regardless of its aircraft; at position
0 the shifted value is NaN and pandas `ne` yields `True`. -/
def zone_change (d : List PRow) (i : Nat) : Bool :=
  match d.get? i with
  | none => false
  | some r =>
    match i with
    | 0 => true
    | j + 1 =>
      match d.get? j with
      | none => true
      | some rp => in_helipad_zone r != in_helipad_zone rp

/-- Column `entry` (line 25): `zone_change & in_helipad_zone`. -/
def entry_col (d : List PRow) (i : Nat) : Bool :=
  zone_change d i && in_zone_at d i

/-- Column `exit` (line 26): `zone_change & ~in_helipad_zone`. -/
def exit_col (d : List PRow) (i : Nat) : Bool :=
  zone_change d i && !(in_zone_at d i)

/-- Row filter of line 30: keep rows with `entry | exit`, i.e. the
entry/exit events. -/
def event_at (d : List PRow) (i : Nat) : Bool :=
  entry_col d i || exit_col d i

/-- The rows kept by line 30 (`d_entries_and_exits[entry | exit]`), in
order. -/
def event_rows (d : List PRow) : List PRow :=
  (List.range d.length).filterMap
    (fun i => if event_at d i then d.get? i else none)

/-- Column `UTC_out` (line 32): within the event rows,
`groupby('aircraft_id')['UTC'].shift(-1)`, i.e. the `UTC` of the next event
row of the same aircraft, NaT if there is none.  `find_next_UTC a l`
returns the `UTC` of the first row of `l` whose aircraft is `a`. -/
def find_next_UTC (a : Nat) : List PRow → Option Int
  | [] => none
  | r :: rs => if r.aircraft_id == a then some r.UTC else find_next_UTC a rs

/-- Value of `UTC_out` for the event row at position `p` of `e`. -/
def UTC_out_at (e : List PRow) (p : Nat) : Option Int :=
  match e.get? p with
  | none => none
  | some r => find_next_UTC r.aircraft_id (e.drop (p + 1))

/-- Column `time_in_zone` (line 34):
`(in_helipad_zone * (UTC_out - UTC)).dt.seconds / 60`.  Pandas `.dt.seconds`
is the seconds component of the timedelta, i.e. the total seconds reduced
modulo 86400 (nonnegative); a NaT `UTC_out` propagates to NaN (`none`); for
a row that is not in a zone the boolean factor 0 turns a present timedelta
into 0 seconds (while `0 * NaT` stays NaT). -/
def time_in_zone (e : List PRow) (p : Nat) : Option ℚ :=
  match e.get? p with
  | none => none
  | some r =>
    match UTC_out_at e p with
    | none => none
    | some u =>
      if in_helipad_zone r then some ((((u - r.UTC) % 86400 : Int) : ℚ) / 60)
      else some 0

/-- Row filter of lines 37-38 (`flyover_filter`): keep rows with
`time_in_zone > dwell_time`; a NaN `time_in_zone` compares `False`. -/
def keep_row (e : List PRow) (p : Nat) : Bool :=
  match time_in_zone e p, e.get? p with
  | some q, some r => decide (r.dwell_time < q)
  | _, _ => false

/-- The event rows surviving the adaptive dwell filter (line 38), in
order. -/
def dwell_filtered (e : List PRow) : List PRow :=
  (List.range e.length).filterMap
    (fun p => if keep_row e p then e.get? p else none)

/-- Map of line 41: `is_primary_hospital.map({1: True, 0: False})`; any
other code becomes NaN. -/
def primary_flag (v : Nat) : Option Bool :=
  if v == 1 then some true else if v == 0 then some false else none

/-- Embedding of `extract_entries_and_exits` (lines 5-42): detect zone
crossings, keep the entry/exit events, attach exit times, drop flyovers and
decode the primary-hospital flag. -/
def extract_entries_and_exits (d : List PRow) : List (PRow × Option Bool) :=
  (dwell_filtered (event_rows d)).map
    (fun r => (r, primary_flag r.is_primary_hospital))

/-- Occurrences of each aircraft form a contiguous block of positions.
This is the shape `load_flight_data.filter_flight_data` gives the frame
(line 111 there groups by `aircraft_id` and sorts each group by `UTC`), and
it is the precondition under which the ungrouped `shift` of line 23
compares each record with its own aircraft's predecessor. -/
def AircraftContig (d : List PRow) : Prop :=
  ∀ i j k a, i ≤ j → j ≤ k →
    aircraft_at d i = some a → aircraft_at d k = some a →
    aircraft_at d j = some a

/-- Position `j` holds the immediately preceding record of the same
aircraft as position `i`: it is before `i`, has the same aircraft, and no
position strictly between them does. -/
def IsPrevSame (d : List PRow) (i j : Nat) : Prop :=
  j < i ∧ aircraft_at d j = aircraft_at d i ∧
    ∀ m, j < m → m < i → aircraft_at d m ≠ aircraft_at d i

end Hemspy

namespace Hemspy

theorem event_at_eq_zone_change (d : List PRow) (i : Nat) :
    event_at d i = zone_change d i := by
  unfold event_at entry_col exit_col
  cases zone_change d i <;> cases in_zone_at d i <;> rfl

/-- C4: under the per-aircraft contiguity that `load_flight_data` gives the
frame (each aircraft's records form one contiguous, time-ordered block),
the detector emits an entry or exit event at a record with an earlier
same-aircraft record exactly when its in-zone state differs from that of
the immediately preceding record of the same aircraft.  The right-hand side
mentions only positions `i` and `j` of that one aircraft, so records of
other aircraft cannot influence the decision. -/
theorem event_iff_state_change (d : List PRow) (i j a : Nat)
    (hc : AircraftContig d) (hi : aircraft_at d i = some a)
    (hprev : IsPrevSame d i j) :
    event_at d i = (in_zone_at d i != in_zone_at d j) := by
  obtain ⟨hji, hsame, hmax⟩ := hprev
  have hj : aircraft_at d j = some a := by rw [hsame, hi]
  have hsucc : i = j + 1 := by
    rcases Nat.lt_or_ge (j + 1) i with hlt | hge
    · exfalso
      have hm : aircraft_at d (i - 1) = some a := by
        refine hc j (i - 1) i a (by omega) (by omega) hj hi
      exact hmax (i - 1) (by omega) (by omega) (by rw [hm, hi])
    · omega
  obtain ⟨r, hr, _⟩ := Option.map_eq_some'.mp hi
  obtain ⟨rp, hrp, _⟩ := Option.map_eq_some'.mp hj
  rw [event_at_eq_zone_change]
  subst hsucc
  simp only [zone_change, in_zone_at, hr, hrp]

/-- Witness for C4: a concrete two-record frame of one aircraft; the second
record left the zone, so an event is emitted there. -/
theorem event_iff_state_change_witness :
    event_at [⟨7, 0, some ("z"), 5, 1⟩, ⟨7, 600, none, 5, 0⟩] 1 =
      (in_zone_at [⟨7, 0, some ("z"), 5, 1⟩, ⟨7, 600, none, 5, 0⟩] 1 !=
       in_zone_at [⟨7, 0, some ("z"), 5, 1⟩, ⟨7, 600, none, 5, 0⟩] 0) := by
  refine event_iff_state_change _ 1 0 7 ?_ (by decide) ?_
  · intro i j k a hij hjk hi hk
    have hk2 : k < 2 := by
      by_contra hge
      push_neg at hge
      have hnone : List.get? [(⟨7, 0, some ("z"), 5, 1⟩ : PRow), ⟨7, 600, none, 5, 0⟩] k = none :=
        List.get?_eq_none.mpr (by simpa using hge)
      rw [aircraft_at, hnone] at hk
      cases hk
    have ha : a = 7 := by
      interval_cases k <;> simpa [aircraft_at] using hk.symm
    have hj2 : j < 2 := by omega
    subst ha
    interval_cases j <;> rfl
  · exact ⟨by omega, by decide, fun m h1 h2 => by omega⟩

/-- C5: for a candidate zone visit (an in-zone event row), the adaptive
dwell filter keeps the row exactly when its dwell value is defined and
strictly exceeds the row's own per-zone threshold; the dwell value is
undefined exactly when the exit time is missing, and a missing exit time
makes the filter drop the row (rather than raise, or treat the dwell as
zero); a kept row really appears in the filtered output. -/
theorem dwell_filter_spec (e : List PRow) (p : Nat) (r : PRow)
    (hr : e.get? p = some r) (hz : in_helipad_zone r = true) :
    (keep_row e p = true ↔
      ∃ q, time_in_zone e p = some q ∧ r.dwell_time < q) ∧
    (time_in_zone e p = none ↔ UTC_out_at e p = none) ∧
    (UTC_out_at e p = none → keep_row e p = false) ∧
    (keep_row e p = true → r ∈ dwell_filtered e) := by
  have hp : p < e.length := List.get?_eq_some.mp hr |>.1
  have htz : time_in_zone e p =
      match UTC_out_at e p with
      | none => none
      | some u => some ((((u - r.UTC) % 86400 : Int) : ℚ) / 60) := by
    unfold time_in_zone
    rw [hr]
    cases UTC_out_at e p
    · rfl
    · simp [hz]
  have hmem : keep_row e p = true → r ∈ dwell_filtered e := by
    intro hk
    unfold dwell_filtered
    exact List.mem_filterMap.mpr
      ⟨p, List.mem_range.mpr hp, by rw [if_pos hk, hr]⟩
  cases hu : UTC_out_at e p with
  | none =>
    rw [hu] at htz
    have htz' : time_in_zone e p = none := htz.trans rfl
    have hkf : keep_row e p = false := by
      unfold keep_row
      rw [htz', hr]
    refine ⟨?_, by simp [htz'], fun _ => hkf, hmem⟩
    constructor
    · intro hk
      rw [hkf] at hk
      cases hk
    · rintro ⟨q, hq, _⟩
      rw [htz'] at hq
      cases hq
  | some u =>
    rw [hu] at htz
    have htz' : time_in_zone e p = some ((((u - r.UTC) % 86400 : Int) : ℚ) / 60) :=
      htz.trans rfl
    refine ⟨?_, ?_, ?_, hmem⟩
    · constructor
      · intro hk
        refine ⟨(((u - r.UTC) % 86400 : Int) : ℚ) / 60, htz', ?_⟩
        unfold keep_row at hk
        rw [htz', hr] at hk
        exact of_decide_eq_true hk
      · rintro ⟨q, hq, hlt⟩
        rw [htz'] at hq
        unfold keep_row
        rw [htz', hr]
        cases hq
        exact decide_eq_true hlt
    · rw [htz']
      constructor
      · intro hq
        cases hq
      · intro hq
        exact Option.noConfusion hq
    · intro hq
      exact Option.noConfusion hq

/-- Witness for C5: a concrete candidate visit with a 10-minute dwell and a
5-minute threshold is kept, its dwell value is defined, and it survives
into the filtered output. -/
theorem dwell_filter_spec_witness :
    (keep_row [(⟨1, 0, some ("z"), 5, 1⟩ : PRow), ⟨1, 600, none, 5, 0⟩] 0 = true ↔
      ∃ q, time_in_zone [(⟨1, 0, some ("z"), 5, 1⟩ : PRow), ⟨1, 600, none, 5, 0⟩] 0 = some q ∧
        (⟨1, 0, some ("z"), 5, 1⟩ : PRow).dwell_time < q) ∧
    (time_in_zone [(⟨1, 0, some ("z"), 5, 1⟩ : PRow), ⟨1, 600, none, 5, 0⟩] 0 = none ↔
      UTC_out_at [(⟨1, 0, some ("z"), 5, 1⟩ : PRow), ⟨1, 600, none, 5, 0⟩] 0 = none) ∧
    (UTC_out_at [(⟨1, 0, some ("z"), 5, 1⟩ : PRow), ⟨1, 600, none, 5, 0⟩] 0 = none →
      keep_row [(⟨1, 0, some ("z"), 5, 1⟩ : PRow), ⟨1, 600, none, 5, 0⟩] 0 = false) ∧
    (keep_row [(⟨1, 0, some ("z"), 5, 1⟩ : PRow), ⟨1, 600, none, 5, 0⟩] 0 = true →
      (⟨1, 0, some ("z"), 5, 1⟩ : PRow) ∈
        dwell_filtered [(⟨1, 0, some ("z"), 5, 1⟩ : PRow), ⟨1, 600, none, 5, 0⟩]) :=
  dwell_filter_spec _ 0 ⟨1, 0, some ("z"), 5, 1⟩ rfl rfl

/-- Failing input for C6: an entry at t = 0 s whose exit is 90000 s
(25 hours) later.  The true dwell is 1500 minutes, but line 34 of
`find_transfers.py` uses `.dt.seconds` (the seconds component of the
timedelta, i.e. modulo one day) instead of `.dt.total_seconds()`, so the
computed `time_in_zone` is 60 minutes; with a 100-minute threshold the
visit is even dropped as a flyover although its real dwell exceeds the
threshold. -/
theorem time_in_zone_drops_days :
    time_in_zone [(⟨1, 0, some ("z"), 100, 1⟩ : PRow), ⟨1, 90000, none, 100, 0⟩] 0 =
      some 60 ∧
    ((90000 - 0 : ℚ) / 60 = 1500) ∧
    (60 : ℚ) ≠ 1500 ∧
    keep_row [(⟨1, 0, some ("z"), 100, 1⟩ : PRow), ⟨1, 90000, none, 100, 0⟩] 0 = false ∧
    (100 : ℚ) < 1500 := by
  have hmod : ((90000 - 0 : Int) % 86400 : Int) = 3600 := by decide
  have h2 : time_in_zone [(⟨1, 0, some ("z"), 100, 1⟩ : PRow), ⟨1, 90000, none, 100, 0⟩] 0 =
      some ((((90000 - 0 : Int) % 86400 : Int) : ℚ) / 60) := rfl
  have h3 : keep_row [(⟨1, 0, some ("z"), 100, 1⟩ : PRow), ⟨1, 90000, none, 100, 0⟩] 0 =
      decide ((100 : ℚ) < (((90000 - 0 : Int) % 86400 : Int) : ℚ) / 60) := rfl
  rw [h2, h3, hmod]
  refine ⟨by norm_num, by norm_num, by norm_num, by norm_num, by norm_num⟩

end Hemspy

namespace Hemspy

/-! ### Transfer matching (`find_transfers.py` lines 44-117)

`create_transfer_dataframe` receives the accepted zone visits.  A `TRow`
carries the columns it reads: `aircraft_id`, the entry time `UTC`, the
nullable exit time `UTC_out` and the boolean `is_primary_hospital`.  After
`reset_index`, rows are identified by their position, modelled with
`List.enum`. -/

structure TRow where
  aircraft_id : Nat
  UTC : Int
  UTC_out : Option Int
  is_primary_hospital : Bool
  deriving Repr, DecidableEq

/-- Rows of `d_primary` (line 63) with their frame indices. -/
def primary_rows (d : List TRow) : List (Nat × TRow) :=
  d.enum.filter (fun r => r.2.is_primary_hospital)

/-- Rows of `d_tertiary` (line 64) with their frame indices. -/
def tertiary_rows (d : List TRow) : List (Nat × TRow) :=
  d.enum.filter (fun r => !r.2.is_primary_hospital)

/-- Predicate of lines 71-75: the tertiary row has the primary row's
aircraft and its entry `UTC` lies in
`[UTC_out, UTC_out + max_transit_time hours]`; a NaT `UTC_out` makes both
comparisons false. -/
def tertiary_window_ok (p t : TRow) (maxT : Int) : Bool :=
  (t.aircraft_id == p.aircraft_id) &&
  (match p.UTC_out with
   | none => false
   | some out => decide (out ≤ t.UTC) && decide (t.UTC ≤ out + maxT * 3600))

/-- Filter of lines 71-75 (`valid_tertiary_landings`): the tertiary rows,
in their current order, matching the primary row `p`. -/
def valid_tertiary_landings (tert : List (Nat × TRow)) (p : TRow) (maxT : Int) :
    List (Nat × TRow) :=
  tert.filter (fun it => tertiary_window_ok p it.2 maxT)

/-- Loop of lines 66-82: iterate over the primary rows in order with the
counter `transfer_id` starting at 0; when `valid_tertiary_landings` is
nonempty, increment the counter and record the assignment
`(transfer_id, primary index, index of the first valid tertiary)`.  The
tertiary subset is never shrunk, exactly as in the source. -/
def assign_transfers_aux (tert : List (Nat × TRow)) (maxT : Int) :
    List (Nat × TRow) → Nat → List (Nat × Nat × Nat)
  | [], _ => []
  | ip :: ps, n =>
    match valid_tertiary_landings tert ip.2 maxT with
    | [] => assign_transfers_aux tert maxT ps n
    | it :: _ => (n + 1, ip.1, it.1) :: assign_transfers_aux tert maxT ps (n + 1)

/-- All `transfer_id` assignments made by the matching loop, in loop
order. -/
def assign_transfers (d : List TRow) (maxT : Int) : List (Nat × Nat × Nat) :=
  assign_transfers_aux (tertiary_rows d) maxT (primary_rows d) 0

/-- Final `transfer_id` of the primary row with frame index `i` (line 81
writes each matched primary exactly once). -/
def sending_id (asgn : List (Nat × Nat × Nat)) (i : Nat) : Option Nat :=
  (asgn.find? (fun t => t.2.1 == i)).map (fun t => t.1)

/-- Final `transfer_id` of the tertiary row with frame index `j`: line 82
may write the same tertiary several times, and the last write wins. -/
def receiving_id (asgn : List (Nat × Nat × Nat)) (j : Nat) : Option Nat :=
  (asgn.reverse.find? (fun t => t.2.2 == j)).map (fun t => t.1)

/-- Lines 84-91: drop rows without a `transfer_id`, split into sending
(primary) and receiving (tertiary) rows and inner-join them on
`transfer_id` (pandas preserves the left, i.e. sending, order).  Each
element is `(transfer_id, sending row, receiving row)`, rows tagged with
their frame indices. -/
def merged_transfers (d : List TRow) (maxT : Int) :
    List (Nat × (Nat × TRow) × (Nat × TRow)) :=
  (primary_rows d).flatMap (fun ip =>
    match sending_id (assign_transfers d maxT) ip.1 with
    | none => []
    | some k =>
      ((tertiary_rows d).filter
        (fun it => receiving_id (assign_transfers d maxT) it.1 == some k)).map
        (fun it => (k, ip, it)))

/-- Output row of `create_transfer_dataframe` with the columns the claims
are about.  `estimated_distance` (line 94) comes from the external geometry
service, abstracted as a function `dist` of the two frame indices;
`expected_transit_time` is line 97, `transit_time` line 104 (computed with
`.dt.total_seconds() / 60`), `transit_time_outlier` lines 106-110 and
`transit_time_ratio` line 112. -/
structure TransferRow where
  transfer_id : Nat
  sending_idx : Nat
  receiving_idx : Nat
  sending : TRow
  receiving : TRow
  estimated_distance : ℚ
  expected_transit_time : ℚ
  transit_time : ℚ
  transit_time_outlier : Bool
  transit_time_ratio : ℚ
  deriving Repr, DecidableEq

/-- Transit time of line 104: `(UTC_receiving - UTC_out_sending)` in
minutes.  A sending row in the merged output always has a present
`UTC_out` (a NaT `UTC_out` matches nothing), so the `none` fallback is
never reached there. -/
def transit_time_of (s r : TRow) : ℚ :=
  match s.UTC_out with
  | none => 0
  | some out => ((r.UTC - out : Int) : ℚ) / 60

/-- Enrichment of one merged element (lines 94-112) into a
`TransferRow`. -/
def enrich_transfer (dist : Nat → Nat → ℚ) (outlier_factor outlier_offset : ℚ)
    (m : Nat × (Nat × TRow) × (Nat × TRow)) : TransferRow :=
  { transfer_id := m.1
    sending_idx := m.2.1.1
    receiving_idx := m.2.2.1
    sending := m.2.1.2
    receiving := m.2.2.2
    estimated_distance := dist m.2.1.1 m.2.2.1
    expected_transit_time := dist m.2.1.1 m.2.2.1 / 250 * 60
    transit_time := transit_time_of m.2.1.2 m.2.2.2
    transit_time_outlier :=
      decide ((dist m.2.1.1 m.2.2.1 / 250 * 60) * outlier_factor + outlier_offset <
        transit_time_of m.2.1.2 m.2.2.2)
    transit_time_ratio :=
      transit_time_of m.2.1.2 m.2.2.2 / (dist m.2.1.1 m.2.2.1 / 250 * 60) }

/-- The frame `d_transfers_merged` right before the optional outlier drop
(lines 91-112). -/
def transfers_merged (d : List TRow) (dist : Nat → Nat → ℚ) (maxT : Int)
    (outlier_factor outlier_offset : ℚ) : List TransferRow :=
  (merged_transfers d maxT).map (enrich_transfer dist outlier_factor outlier_offset)

/-- Embedding of `create_transfer_dataframe` (lines 44-117): match, merge
and enrich, then optionally drop outlier rows (lines 114-115). -/
def create_transfer_dataframe (d : List TRow) (dist : Nat → Nat → ℚ) (maxT : Int)
    (remove_outliers : Bool) (outlier_factor outlier_offset : ℚ) :
    List TransferRow :=
  if remove_outliers then
    (transfers_merged d dist maxT outlier_factor outlier_offset).filter
      (fun r => r.transit_time_outlier == false)
  else transfers_merged d dist maxT outlier_factor outlier_offset

end Hemspy

namespace Hemspy

theorem assign_aux_ids (tert : List (Nat × TRow)) (maxT : Int) :
    ∀ (ps : List (Nat × TRow)) (n : Nat),
      (assign_transfers_aux tert maxT ps n).map (fun t => t.1) =
        List.range' (n + 1) (assign_transfers_aux tert maxT ps n).length := by
  intro ps
  induction ps with
  | nil => intro n; rfl
  | cons ip ps ih =>
    intro n
    cases hv : valid_tertiary_landings tert ip.2 maxT with
    | nil =>
      simp only [assign_transfers_aux, hv]
      exact ih n
    | cons it l =>
      simp only [assign_transfers_aux, hv, List.map_cons, List.length_cons]
      rw [ih (n + 1), List.range'_succ]

theorem assign_ids_range (d : List TRow) (maxT : Int) :
    (assign_transfers d maxT).map (fun t => t.1) =
      List.range' 1 (assign_transfers d maxT).length :=
  assign_aux_ids (tertiary_rows d) maxT (primary_rows d) 0

theorem assign_ids_pairwise (d : List TRow) (maxT : Int) :
    (assign_transfers d maxT).Pairwise (fun a b => a.1 < b.1) := by
  have h := assign_ids_range d maxT
  have h2 := List.pairwise_lt_range' 1 (assign_transfers d maxT).length
  rw [← h] at h2
  exact List.pairwise_map.mp h2

theorem eq_of_pairwise_lt_mem {α : Type} {f : α → Nat} :
    ∀ l : List α, l.Pairwise (fun a b => f a < f b) →
      ∀ x ∈ l, ∀ y ∈ l, f x = f y → x = y := by
  intro l
  induction l with
  | nil => intro _ x hx; cases hx
  | cons a l ih =>
    intro hp x hx y hy hf
    obtain ⟨ha, hl⟩ := List.pairwise_cons.mp hp
    rcases List.mem_cons.mp hx with hxa | hx
    · rcases List.mem_cons.mp hy with hya | hy
      · rw [hxa, hya]
      · exfalso
        have := ha y hy
        rw [hxa] at hf
        omega
    · rcases List.mem_cons.mp hy with hya | hy
      · exfalso
        have := ha x hx
        rw [hya] at hf
        omega
      · exact ih hl x hx y hy hf

theorem assign_aux_mem (tert : List (Nat × TRow)) (maxT : Int) :
    ∀ (ps : List (Nat × TRow)) (n : Nat) (t : Nat × Nat × Nat),
      t ∈ assign_transfers_aux tert maxT ps n →
      ∃ p ∈ ps, ∃ q l, valid_tertiary_landings tert p.2 maxT = q :: l ∧
        t.2.1 = p.1 ∧ t.2.2 = q.1 := by
  intro ps
  induction ps with
  | nil => intro n t ht; cases ht
  | cons ip ps ih =>
    intro n t ht
    cases hv : valid_tertiary_landings tert ip.2 maxT with
    | nil =>
      simp only [assign_transfers_aux, hv] at ht
      obtain ⟨p, hp, rest⟩ := ih n t ht
      exact ⟨p, List.mem_cons_of_mem _ hp, rest⟩
    | cons q l =>
      simp only [assign_transfers_aux, hv] at ht
      rcases List.mem_cons.mp ht with rfl | ht
      · exact ⟨ip, List.mem_cons_self _ _, q, l, hv, rfl, rfl⟩
      · obtain ⟨p, hp, rest⟩ := ih (n + 1) t ht
        exact ⟨p, List.mem_cons_of_mem _ hp, rest⟩

theorem assign_aux_of_head (tert : List (Nat × TRow)) (maxT : Int) :
    ∀ (ps : List (Nat × TRow)) (n : Nat) (ip q : Nat × TRow) (l : List (Nat × TRow)),
      ip ∈ ps → valid_tertiary_landings tert ip.2 maxT = q :: l →
      ∃ k, (k, ip.1, q.1) ∈ assign_transfers_aux tert maxT ps n := by
  intro ps
  induction ps with
  | nil => intro n ip q l hip; cases hip
  | cons p ps ih =>
    intro n ip q l hip hv
    rcases List.mem_cons.mp hip with rfl | hip
    · refine ⟨n + 1, ?_⟩
      simp only [assign_transfers_aux, hv]
      exact List.mem_cons_self _ _
    · cases hv2 : valid_tertiary_landings tert p.2 maxT with
      | nil =>
        obtain ⟨k, hk⟩ := ih n ip q l hip hv
        refine ⟨k, ?_⟩
        simp only [assign_transfers_aux, hv2]
        exact hk
      | cons q2 l2 =>
        obtain ⟨k, hk⟩ := ih (n + 1) ip q l hip hv
        refine ⟨k, ?_⟩
        simp only [assign_transfers_aux, hv2]
        exact List.mem_cons_of_mem _ hk

theorem primary_rows_fst_nodup (d : List TRow) :
    ((primary_rows d).map Prod.fst).Nodup := by
  have h1 : List.Sublist (primary_rows d) d.enum := List.filter_sublist _
  have h2 := List.Sublist.map Prod.fst h1
  have h3 : (d.enum.map Prod.fst).Nodup := by
    rw [List.enum_map_fst]
    exact List.nodup_range _
  exact List.Nodup.sublist h2 h3

theorem tertiary_rows_fst_nodup (d : List TRow) :
    ((tertiary_rows d).map Prod.fst).Nodup := by
  have h1 : List.Sublist (tertiary_rows d) d.enum := List.filter_sublist _
  have h2 := List.Sublist.map Prod.fst h1
  have h3 : (d.enum.map Prod.fst).Nodup := by
    rw [List.enum_map_fst]
    exact List.nodup_range _
  exact List.Nodup.sublist h2 h3

/-- C1: processed in the order primary visits appear in the accepted set,
the matching loop pairs each primary visit having at least one valid
tertiary candidate with the earliest-appearing candidate in the tertiary
subset's current order (which the source never shrinks), assigning
transfer ids that are exactly the strictly increasing integers 1, 2, ...;
a primary visit with no candidate receives no assignment, and, the loop
being a total function, no error is raised. -/
theorem matcher_greedy_spec (d : List TRow) (maxT : Int) :
    ((assign_transfers d maxT).map (fun t => t.1) =
      List.range' 1 (assign_transfers d maxT).length) ∧
    (∀ ip ∈ primary_rows d,
      (valid_tertiary_landings (tertiary_rows d) ip.2 maxT = [] →
        ∀ t ∈ assign_transfers d maxT, t.2.1 ≠ ip.1) ∧
      (∀ q l, valid_tertiary_landings (tertiary_rows d) ip.2 maxT = q :: l →
        ∃ k, (k, ip.1, q.1) ∈ assign_transfers d maxT)) := by
  refine ⟨assign_ids_range d maxT, ?_⟩
  intro ip hip
  constructor
  · intro hv t ht heq
    obtain ⟨p, hp, q, l, hpv, ht1, ht2⟩ :=
      assign_aux_mem (tertiary_rows d) maxT (primary_rows d) 0 t ht
    have hpi : p = ip :=
      List.inj_on_of_nodup_map (primary_rows_fst_nodup d) hp hip
        (ht1.symm.trans heq)
    rw [hpi, hv] at hpv
    cases hpv
  · intro q l hv
    exact assign_aux_of_head (tertiary_rows d) maxT (primary_rows d) 0 ip q l hip hv

/-- Witness for C1: with one primary visit exiting at t = 600 s and one
matching tertiary visit entering at t = 2400 s, the loop assigns them a
common transfer id. -/
theorem matcher_greedy_spec_witness :
    ∃ k, (k, 0, 1) ∈
      assign_transfers [⟨1, 0, some 600, true⟩, ⟨1, 2400, some 3000, false⟩] 3 :=
  ((matcher_greedy_spec [⟨1, 0, some 600, true⟩, ⟨1, 2400, some 3000, false⟩] 3).2
    (0, ⟨1, 0, some 600, true⟩) (by decide)).2
    (1, ⟨1, 2400, some 3000, false⟩) [] (by decide)

end Hemspy

namespace Hemspy

theorem pairwise_flatMap {α β : Type} {R : β → β → Prop} :
    ∀ (l : List α) (f : α → List β),
      (∀ a ∈ l, (f a).Pairwise R) →
      l.Pairwise (fun a b => ∀ x ∈ f a, ∀ y ∈ f b, R x y) →
      (l.flatMap f).Pairwise R := by
  intro l f
  induction l with
  | nil => intro _ _; exact List.Pairwise.nil
  | cons a l ih =>
    intro h1 h2
    rw [List.flatMap_cons, List.pairwise_append]
    obtain ⟨ha2, hl2⟩ := List.pairwise_cons.mp h2
    refine ⟨h1 a (List.mem_cons_self _ _),
      ih (fun b hb => h1 b (List.mem_cons_of_mem _ hb)) hl2, ?_⟩
    intro x hx y hy
    obtain ⟨b, hb, hyb⟩ := List.mem_flatMap.mp hy
    exact ha2 b hb x hx y hyb

theorem pairwise_of_nodup_allEq {β : Type} {R : β → β → Prop} (s : List β)
    (hnd : s.Nodup) (hall : ∀ x ∈ s, ∀ y ∈ s, x = y) : s.Pairwise R := by
  cases s with
  | nil => exact List.Pairwise.nil
  | cons a t =>
    have ht : t = [] := by
      rw [List.eq_nil_iff_forall_not_mem]
      intro b hb
      have hba : b = a :=
        hall b (List.mem_cons_of_mem _ hb) a (List.mem_cons_self _ _)
      rw [hba] at hb
      exact (List.nodup_cons.mp hnd).1 hb
    subst ht
    simp

theorem sending_id_spec (asgn : List (Nat × Nat × Nat)) (i k : Nat)
    (h : sending_id asgn i = some k) :
    ∃ t ∈ asgn, t.1 = k ∧ t.2.1 = i := by
  unfold sending_id at h
  cases hf : asgn.find? (fun t => t.2.1 == i) with
  | none => rw [hf] at h; cases h
  | some t =>
    rw [hf] at h
    refine ⟨t, List.mem_of_find?_eq_some hf, by simpa using h, ?_⟩
    have := List.find?_some hf
    simpa using this

theorem receiving_id_spec (asgn : List (Nat × Nat × Nat)) (j k : Nat)
    (h : receiving_id asgn j = some k) :
    ∃ t ∈ asgn, t.1 = k ∧ t.2.2 = j := by
  unfold receiving_id at h
  cases hf : asgn.reverse.find? (fun t => t.2.2 == j) with
  | none => rw [hf] at h; cases h
  | some t =>
    rw [hf] at h
    refine ⟨t, List.mem_reverse.mp (List.mem_of_find?_eq_some hf),
      by simpa using h, ?_⟩
    have := List.find?_some hf
    simpa using this

theorem assign_transfers_uniq_id (d : List TRow) (maxT : Int) :
    ∀ t ∈ assign_transfers d maxT, ∀ t2 ∈ assign_transfers d maxT,
      t.1 = t2.1 → t = t2 :=
  eq_of_pairwise_lt_mem (assign_transfers d maxT) (assign_ids_pairwise d maxT)

theorem primary_rows_pairwise_ne (d : List TRow) :
    (primary_rows d).Pairwise (fun a b => a.1 ≠ b.1) :=
  List.pairwise_map.mp (primary_rows_fst_nodup d)

theorem tertiary_rows_nodup (d : List TRow) : (tertiary_rows d).Nodup :=
  List.Nodup.of_map Prod.fst (tertiary_rows_fst_nodup d)

theorem mem_merged_transfers (d : List TRow) (maxT : Int)
    (m : Nat × (Nat × TRow) × (Nat × TRow)) (h : m ∈ merged_transfers d maxT) :
    m.2.1 ∈ primary_rows d ∧ m.2.2 ∈ tertiary_rows d ∧
    sending_id (assign_transfers d maxT) m.2.1.1 = some m.1 ∧
    receiving_id (assign_transfers d maxT) m.2.2.1 = some m.1 := by
  obtain ⟨ip, hip, hm⟩ := List.mem_flatMap.mp h
  cases hs : sending_id (assign_transfers d maxT) ip.1 with
  | none =>
    rw [hs] at hm
    cases hm
  | some k =>
    rw [hs] at hm
    obtain ⟨it, hit, heq⟩ := List.mem_map.mp hm
    obtain ⟨hitm, hpred⟩ := List.mem_filter.mp hit
    have hrid : receiving_id (assign_transfers d maxT) it.1 = some k := by
      simpa using hpred
    subst heq
    exact ⟨hip, hitm, hs, hrid⟩

theorem merged_transfers_pairwise (d : List TRow) (maxT : Int) :
    (merged_transfers d maxT).Pairwise
      (fun a b => a.1 ≠ b.1 ∧ a.2.2.1 ≠ b.2.2.1) := by
  unfold merged_transfers
  apply pairwise_flatMap
  · intro ip _
    cases hs : sending_id (assign_transfers d maxT) ip.1 with
    | none => exact List.Pairwise.nil
    | some k =>
      have hall : ∀ x ∈ (tertiary_rows d).filter
          (fun it => receiving_id (assign_transfers d maxT) it.1 == some k),
          ∀ y ∈ (tertiary_rows d).filter
          (fun it => receiving_id (assign_transfers d maxT) it.1 == some k),
          x = y := by
        intro x hx y hy
        obtain ⟨hxm, hxp⟩ := List.mem_filter.mp hx
        obtain ⟨hym, hyp⟩ := List.mem_filter.mp hy
        have hxk : receiving_id (assign_transfers d maxT) x.1 = some k := by
          simpa using hxp
        have hyk : receiving_id (assign_transfers d maxT) y.1 = some k := by
          simpa using hyp
        obtain ⟨t, htm, ht1, ht2⟩ := receiving_id_spec _ _ _ hxk
        obtain ⟨t2, ht2m, ht21, ht22⟩ := receiving_id_spec _ _ _ hyk
        have htt : t = t2 :=
          assign_transfers_uniq_id d maxT t htm t2 ht2m (ht1.trans ht21.symm)
        have hfst : x.1 = y.1 := by
          rw [← ht2, ← ht22, htt]
        exact List.inj_on_of_nodup_map (tertiary_rows_fst_nodup d) hxm hym hfst
      have hfalse : ((tertiary_rows d).filter
          (fun it => receiving_id (assign_transfers d maxT) it.1 == some k)).Pairwise
          (fun _ _ => False) :=
        pairwise_of_nodup_allEq _ (List.Nodup.filter _ (tertiary_rows_nodup d)) hall
      exact List.Pairwise.map _ (fun a b hab => hab.elim) hfalse
  · refine List.Pairwise.imp ?_ (primary_rows_pairwise_ne d)
    intro ip1 ip2 hne x hx y hy
    cases hs1 : sending_id (assign_transfers d maxT) ip1.1 with
    | none =>
      rw [hs1] at hx
      cases hx
    | some k1 =>
      rw [hs1] at hx
      cases hs2 : sending_id (assign_transfers d maxT) ip2.1 with
      | none =>
        rw [hs2] at hy
        cases hy
      | some k2 =>
        rw [hs2] at hy
        obtain ⟨it1, hit1, hx1⟩ := List.mem_map.mp hx
        obtain ⟨it2, hit2, hy1⟩ := List.mem_map.mp hy
        obtain ⟨hit1m, hp1⟩ := List.mem_filter.mp hit1
        obtain ⟨hit2m, hp2⟩ := List.mem_filter.mp hit2
        have hr1 : receiving_id (assign_transfers d maxT) it1.1 = some k1 := by
          simpa using hp1
        have hr2 : receiving_id (assign_transfers d maxT) it2.1 = some k2 := by
          simpa using hp2
        have hkk : k1 ≠ k2 := by
          intro hk
          obtain ⟨t, htm, ht1, ht2⟩ := sending_id_spec _ _ _ hs1
          obtain ⟨t2, ht2m, ht21, ht22⟩ := sending_id_spec _ _ _ hs2
          have htt : t = t2 :=
            assign_transfers_uniq_id d maxT t htm t2 ht2m
              (by rw [ht1, ht21, hk])
          exact hne (by rw [← ht2, ← ht22, htt])
        subst hx1
        subst hy1
        refine ⟨hkk, ?_⟩
        intro hit
        apply hkk
        have : receiving_id (assign_transfers d maxT) it1.1 =
            receiving_id (assign_transfers d maxT) it2.1 := by rw [hit]
        rw [hr1, hr2] at this
        exact Option.some.inj this

end Hemspy

namespace Hemspy

/-- C2: in the transfer table returned by `create_transfer_dataframe`, no
tertiary visit (identified by its frame index) is the receiving visit of
two distinct transfers, and no `transfer_id` value appears in more than one
output row.  Although the loop may overwrite a tertiary visit's
`transfer_id` (line 82), every id is written to exactly one primary and one
tertiary row, so the inner join pairs each surviving id at most once. -/
theorem transfer_table_consumption_unique (d : List TRow) (dist : Nat → Nat → ℚ)
    (maxT : Int) (remove_outliers : Bool) (outlier_factor outlier_offset : ℚ) :
    ((create_transfer_dataframe d dist maxT remove_outliers outlier_factor
        outlier_offset).map (fun r => r.receiving_idx)).Nodup ∧
    ((create_transfer_dataframe d dist maxT remove_outliers outlier_factor
        outlier_offset).map (fun r => r.transfer_id)).Nodup := by
  have hrows : (transfers_merged d dist maxT outlier_factor outlier_offset).Pairwise
      (fun a b => a.transfer_id ≠ b.transfer_id ∧ a.receiving_idx ≠ b.receiving_idx) := by
    unfold transfers_merged
    exact List.Pairwise.map _ (fun a b hab => ⟨hab.1, hab.2⟩)
      (merged_transfers_pairwise d maxT)
  have hcreate : (create_transfer_dataframe d dist maxT remove_outliers
      outlier_factor outlier_offset).Pairwise
      (fun a b => a.transfer_id ≠ b.transfer_id ∧ a.receiving_idx ≠ b.receiving_idx) := by
    unfold create_transfer_dataframe
    cases remove_outliers
    · exact hrows
    · exact List.Pairwise.sublist (List.filter_sublist _) hrows
  constructor
  · refine List.pairwise_map.mpr ?_
    exact List.Pairwise.imp (fun hab => hab.2) hcreate
  · refine List.pairwise_map.mpr ?_
    exact List.Pairwise.imp (fun hab => hab.1) hcreate

/-- C3: every row of the transfer table has a primary-hospital sending
visit, a non-primary receiving visit, and a receiving entry time inside
`[sending exit, sending exit + max_transit_time hours]`. -/
theorem transfer_rows_wellformed (d : List TRow) (dist : Nat → Nat → ℚ)
    (maxT : Int) (remove_outliers : Bool) (outlier_factor outlier_offset : ℚ) :
    ∀ r ∈ create_transfer_dataframe d dist maxT remove_outliers outlier_factor
        outlier_offset,
      r.sending.is_primary_hospital = true ∧
      r.receiving.is_primary_hospital = false ∧
      ∃ out, r.sending.UTC_out = some out ∧
        out ≤ r.receiving.UTC ∧ r.receiving.UTC ≤ out + maxT * 3600 := by
  intro r hr
  have hr2 : r ∈ transfers_merged d dist maxT outlier_factor outlier_offset := by
    unfold create_transfer_dataframe at hr
    cases remove_outliers
    · exact hr
    · exact List.mem_of_mem_filter hr
  obtain ⟨m, hm, hmk⟩ := List.mem_map.mp hr2
  obtain ⟨hprim, htert, hsid, hrid⟩ := mem_merged_transfers d maxT m hm
  subst hmk
  refine ⟨(List.mem_filter.mp hprim).2, ?_, ?_⟩
  · have h2 := (List.mem_filter.mp htert).2
    simpa using h2
  · obtain ⟨t, htm, ht1, ht2⟩ := sending_id_spec _ _ _ hsid
    obtain ⟨t2, ht2m, ht21, ht22⟩ := receiving_id_spec _ _ _ hrid
    have htt : t = t2 :=
      assign_transfers_uniq_id d maxT t htm t2 ht2m (ht1.trans ht21.symm)
    obtain ⟨p, hp, q, l, hval, hq1, hq2⟩ :=
      assign_aux_mem (tertiary_rows d) maxT (primary_rows d) 0 t htm
    have hpm : p = m.2.1 :=
      List.inj_on_of_nodup_map (primary_rows_fst_nodup d) hp hprim
        (hq1.symm.trans ht2)
    have hqmem : q ∈ valid_tertiary_landings (tertiary_rows d) p.2 maxT := by
      rw [hval]
      exact List.mem_cons_self _ _
    obtain ⟨hqt, hqw⟩ := List.mem_filter.mp hqmem
    have hqm : q = m.2.2 := by
      apply List.inj_on_of_nodup_map (tertiary_rows_fst_nodup d) hqt htert
      rw [← hq2, htt]
      exact ht22
    rw [hpm, hqm] at hqw
    unfold tertiary_window_ok at hqw
    rw [Bool.and_eq_true] at hqw
    cases hout : m.2.1.2.UTC_out with
    | none =>
      rw [hout] at hqw
      exact absurd hqw.2 (by simp)
    | some out =>
      rw [hout] at hqw
      have hq2' := hqw.2
      rw [Bool.and_eq_true, decide_eq_true_iff, decide_eq_true_iff] at hq2'
      exact ⟨out, hout, hq2'.1, hq2'.2⟩

/-- Rows of the C3 witness scenario: one primary visit exiting at 1200 s
and one tertiary visit of the same aircraft entering at 3000 s. -/
def c3_rows : List TRow :=
  [⟨2, 0, some 1200, true⟩, ⟨2, 3000, some 3600, false⟩]

/-- The single transfer produced by the C3 witness scenario. -/
def c3_transfer : TransferRow :=
  enrich_transfer (fun _ _ => 250) 2 5
    (1, (0, ⟨2, 0, some 1200, true⟩), (1, ⟨2, 3000, some 3600, false⟩))

/-- Witness for C3: the scenario's single output row is well formed. -/
theorem transfer_rows_wellformed_witness :
    c3_transfer.sending.is_primary_hospital = true ∧
    c3_transfer.receiving.is_primary_hospital = false ∧
    ∃ out, c3_transfer.sending.UTC_out = some out ∧
      out ≤ c3_transfer.receiving.UTC ∧
      c3_transfer.receiving.UTC ≤ out + 2 * 3600 :=
  transfer_rows_wellformed c3_rows (fun _ _ => 250) 2 false 2 5 c3_transfer
    (List.mem_map_of_mem _ (by decide))

/-- C9: in every output row, `expected_transit_time` is
`estimated_distance / 250 * 60` and the outlier flag is set exactly when
`transit_time` strictly exceeds
`expected_transit_time * outlier_factor + outlier_offset`. -/
theorem outlier_flag_spec (d : List TRow) (dist : Nat → Nat → ℚ) (maxT : Int)
    (remove_outliers : Bool) (outlier_factor outlier_offset : ℚ) :
    ∀ r ∈ create_transfer_dataframe d dist maxT remove_outliers outlier_factor
        outlier_offset,
      r.expected_transit_time = r.estimated_distance / 250 * 60 ∧
      (r.transit_time_outlier = true ↔
        r.expected_transit_time * outlier_factor + outlier_offset <
          r.transit_time) := by
  intro r hr
  have hr2 : r ∈ transfers_merged d dist maxT outlier_factor outlier_offset := by
    unfold create_transfer_dataframe at hr
    cases remove_outliers
    · exact hr
    · exact List.mem_of_mem_filter hr
  obtain ⟨m, hm, hmk⟩ := List.mem_map.mp hr2
  subst hmk
  exact ⟨rfl, decide_eq_true_iff⟩

/-- The transfer of the C9 witness scenario: distance 50 km, exit at 0 s,
tertiary entry at 2400 s (40 minutes transit), default outlier factor 2 and
offset 5. -/
def c9_transfer : TransferRow :=
  enrich_transfer (fun _ _ => 50) 2 5
    (1, (0, ⟨3, 0, some 0, true⟩), (1, ⟨3, 2400, some 2600, false⟩))

/-- Witness for C9: the scenario expected transit is 12 minutes, the
threshold 29 minutes and the actual 40 minutes, so the outlier flag is
set. -/
theorem outlier_flag_spec_witness :
    (c9_transfer.expected_transit_time = c9_transfer.estimated_distance / 250 * 60 ∧
      (c9_transfer.transit_time_outlier = true ↔
        c9_transfer.expected_transit_time * 2 + 5 < c9_transfer.transit_time)) ∧
    c9_transfer.transit_time_outlier = true := by
  have h := outlier_flag_spec [⟨3, 0, some 0, true⟩, ⟨3, 2400, some 2600, false⟩]
    (fun _ _ => 50) 3 false 2 5 c9_transfer (List.mem_map_of_mem _ (by decide))
  refine ⟨h, h.2.mpr ?_⟩
  show (50 : ℚ) / 250 * 60 * 2 + 5 < transit_time_of ⟨3, 0, some 0, true⟩ ⟨3, 2400, some 2600, false⟩
  unfold transit_time_of
  norm_num

end Hemspy
